import Mathlib

/-!
Verification of the AudioStreamPlayer3D playback manager.

Shallow embedding of `src/unnamed/part_001` (the `AudioStreamPlayer3D`
class), of the loader/cache utilities in
`src/apps/simple_demo/src/main.ts` (`streamCache`, `loadAudioBuffer`,
`loadAudioWithCaching`), and of the variant class in
`src/unnamed/part_000`.

Modelling conventions:
* JS numbers are modelled as `ℚ` (times, durations, rates, offsets).
* The Web Audio graph is opaque; calls into it (`source.stop(0)`,
  `source.disconnect()`, `source.start(0, offset)`, resolving the
  `whenAllEnded` promise, disconnecting the panner/gain nodes) are
  recorded in an event log, newest event first.
* Each created `AudioBufferSourceNode` is identified by a fresh `vid`
  drawn from a counter `nextId`; JS object identity (`indexOf`) becomes
  comparison of `vid`s, which are unique by construction.
* `fetch`+`decodeAudioData` is an oracle `String → Except LoadError
  AudioBuffer`; a `World` carries the shared `streamCache` and a log of
  fetch attempts.  Async methods return an `Option LoadError` recording
  whether the returned promise rejected.
* The single-slot `_endedPromiseResolver` is modelled by the Boolean
  `waiterPending` plus `Evt.resolveWaiter` log entries (which caller's
  resolver fires is not tracked; no claim depends on it).
-/

/-- A decoded audio buffer: duration in seconds plus PCM content.
Mirrors the `AudioBuffer` objects produced by `decodeAudioData`. -/
structure AudioBuffer where
  duration : ℚ
  pcm : List Int
deriving Repr, DecidableEq

/-- Failure of the fetch+decode primitive (network error or
`decodeAudioData` rejection), per spec §4.2 / §7. -/
inductive LoadError where
  | fetchFailed
  | decodeFailed
deriving Repr, DecidableEq

/-- The `streamCache : Map<string, AudioBuffer>` from
`src/apps/simple_demo/src/main.ts`, as an association list with
JS-`Map` key-uniqueness maintained by `cacheSet`. -/
abbrev Cache := List (String × AudioBuffer)

/-- `streamCache.get(url)`. -/
def cacheGet : Cache → String → Option AudioBuffer
  | [], _ => none
  | (k', b) :: rest, k => if k' = k then some b else cacheGet rest k

/-- `streamCache.set(url, buffer)`: replace in place if the key is
present, otherwise append (JS `Map.set` semantics). -/
def cacheSet : Cache → String → AudioBuffer → Cache
  | [], k, b => [(k, b)]
  | (k', b') :: rest, k, b =>
      if k' = k then (k, b) :: rest else (k', b') :: cacheSet rest k b

/-- `streamCache.delete(url)`. -/
def cacheDelete (c : Cache) (k : String) : Cache :=
  c.filter (fun p => p.1 != k)

/-- Number of entries stored under a key. -/
def countKey (c : Cache) (k : String) : Nat :=
  (c.filter (fun p => p.1 == k)).length

/-- External world shared by all players: the decode cache plus a log of
fetch attempts (newest first), instrumenting the `fetch(url)` call in
`loadAudioBuffer`. -/
structure World where
  cache : Cache
  fetchLog : List String
deriving Repr, DecidableEq

/-- `loadAudioBuffer(context, url)` from main.ts: fetch the bytes and
decode them.  The fetch attempt is logged; the oracle gives the result. -/
def loadAudioBufferM (fetch : String → Except LoadError AudioBuffer)
    (w : World) (url : String) : Except LoadError AudioBuffer × World :=
  (fetch url, { w with fetchLog := url :: w.fetchLog })

/-- `loadAudioWithCaching(context, url)` from main.ts:
`let buffer = streamCache.get(url); if (!buffer) { buffer = await
loadAudioBuffer(context, url); streamCache.set(url, buffer); } return
buffer;` -/
def loadAudioWithCachingM (fetch : String → Except LoadError AudioBuffer)
    (w : World) (url : String) : Except LoadError AudioBuffer × World :=
  match cacheGet w.cache url with
  | some b => (Except.ok b, w)
  | none =>
    match loadAudioBufferM fetch w url with
    | (Except.ok b, w') => (Except.ok b, { w' with cache := cacheSet w'.cache url b })
    | (Except.error e, w') => (Except.error e, w')

/-- One active `AudioBufferSourceNode` held in `this.sources`:
its identity, its `loop` flag, its `playbackRate.value`, and the offset
passed to `start(0, offset)`. -/
structure Voice where
  vid : Nat
  loop : Bool
  rate : ℚ
  startOffset : ℚ
deriving Repr, DecidableEq

/-- Observable calls into the opaque audio graph / promise machinery. -/
inductive Evt where
  | start (vid : Nat) (offset : ℚ)
  | stopVoice (vid : Nat)
  | disconnectVoice (vid : Nat)
  | resolveWaiter
  | disconnectNodes
deriving Repr, DecidableEq

/-- The mutable state of one `AudioStreamPlayer3D` instance
(part_001 field layout; part_000 differs only in the initial `buffer`,
see `PlayerState.initV0`). -/
structure PlayerState where
  loop : Bool
  playbackRate : ℚ
  maxPolyphony : Nat
  offset : ℚ
  waiterPending : Bool
  useCache : Bool
  sourcePath : String
  buffer : Option AudioBuffer
  sources : List Voice
  nextId : Nat
  events : List Evt
deriving Repr, DecidableEq

/-- Constructor state of part_001 (`buffer = null`, empty source list,
defaults `loop = false`, `playbackRate = 1`, `offset = 0`). -/
def PlayerState.init (sourcePath : String) (useCache : Bool)
    (maxPolyphony : Nat) : PlayerState :=
  { loop := false
    playbackRate := 1
    maxPolyphony := maxPolyphony
    offset := 0
    waiterPending := false
    useCache := useCache
    sourcePath := sourcePath
    buffer := none
    sources := []
    nextId := 0
    events := [] }

/-- The zero-length placeholder `new AudioBuffer({ length: 0,
sampleRate: 44100 })` with which part_000 initialises `this.buffer`
(duration `0 / 44100 = 0`). -/
def emptyBuffer : AudioBuffer := { duration := 0, pcm := [] }

/-- Constructor state of part_000: identical to part_001 except that
`buffer` starts as the truthy zero-length placeholder, never `null`. -/
def PlayerState.initV0 (sourcePath : String) (useCache : Bool)
    (maxPolyphony : Nat) : PlayerState :=
  { PlayerState.init sourcePath useCache maxPolyphony with
      buffer := some emptyBuffer }

/-- Events generated by the `for` loop of `stopAllSources`: for each
source in order, `stop(0)` then `disconnect()`, pushed onto the log. -/
def stopEvents (vs : List Voice) (acc : List Evt) : List Evt :=
  vs.foldl (fun acc v => Evt.disconnectVoice v.vid :: Evt.stopVoice v.vid :: acc) acc

/-- `stopAllSources()` (part_001 lines 176-187): stop and disconnect
every source, truncate the list, and resolve a pending
`_endedPromiseResolver` if there is one. -/
def PlayerState.stopAllSources (s : PlayerState) : PlayerState :=
  let evs := stopEvents s.sources s.events
  if s.waiterPending then
    { s with sources := [], waiterPending := false
             events := Evt.resolveWaiter :: evs }
  else
    { s with sources := [], events := evs }

/-- `loadAudio()` (part_001 lines 66-69): pick the load method by
`_useCache` and assign `this.buffer` on success; a rejection leaves the
state unchanged and propagates. -/
def PlayerState.loadAudio (fetch : String → Except LoadError AudioBuffer)
    (s : PlayerState) (w : World) : PlayerState × World × Option LoadError :=
  let lm := if s.useCache then loadAudioWithCachingM else loadAudioBufferM
  match lm fetch w s.sourcePath with
  | (Except.ok b, w') => ({ s with buffer := some b }, w', none)
  | (Except.error e, w') => (s, w', some e)

/-- The polyphony-enforcement step of `play()` (part_001 lines 81-88):
`shift()` the oldest source, stop and disconnect it.  (On an empty list
`shift()` yields `undefined` and the `if (oldestSource)` guard skips.) -/
def PlayerState.evictOldest (s : PlayerState) : PlayerState :=
  match s.sources with
  | [] => s
  | oldest :: rest =>
      { s with sources := rest
               events := Evt.disconnectVoice oldest.vid ::
                 Evt.stopVoice oldest.vid :: s.events }

/-- The body of `play()` after the buffer guards (part_001 lines
80-113): polyphony enforcement, source creation, the loop/non-loop mode
branch, and `source.start(0, this._offset)`. -/
def PlayerState.playLoaded (s : PlayerState) : PlayerState :=
  let s2 := if s.maxPolyphony ≤ s.sources.length then s.evictOldest else s
  let v : Voice := ⟨s2.nextId, s2.loop, s2.playbackRate, s2.offset⟩
  let s3 := { s2 with nextId := s2.nextId + 1 }
  let s4 :=
    if s3.loop then
      let st := s3.stopAllSources
      { st with sources := [v] }
    else
      { s3 with sources := s3.sources ++ [v] }
  { s4 with events := Evt.start v.vid s4.offset :: s4.events }

/-- `play()` (part_001 lines 74-114).  If `this.buffer` is null the
implicit `loadAudio()` runs first; a rejection there propagates out of
`play()` (the `await` rethrows).  If the buffer is still null the call
returns early. -/
def PlayerState.play (fetch : String → Except LoadError AudioBuffer)
    (s : PlayerState) (w : World) : PlayerState × World × Option LoadError :=
  if s.buffer.isSome then (s.playLoaded, w, none)
  else
    match s.loadAudio fetch w with
    | (s1, w1, some e) => (s1, w1, some e)
    | (s1, w1, none) =>
      match s1.buffer with
      | none => (s1, w1, none)
      | some _ => (s1.playLoaded, w1, none)

/-- `stop()` (part_001 lines 119-122). -/
def PlayerState.stop (s : PlayerState) : PlayerState :=
  let s1 := s.stopAllSources
  { s1 with offset := 0 }

/-- Truncation toward zero, as JS `Math.trunc` / the quotient implicit
in the `%` operator. -/
def jsTrunc (q : ℚ) : ℤ :=
  if 0 ≤ q then ⌊q⌋ else -⌊-q⌋

/-- The JS remainder operator `t % d` on (rational-valued) numbers:
`t - d * trunc(t / d)`. -/
def jsMod (t d : ℚ) : ℚ :=
  t - d * (jsTrunc (t / d) : ℚ)

/-- `seek(time)` (part_001 lines 128-138): no-op without a buffer;
otherwise set `_offset = time % buffer.duration` and, if any source is
active, `stopAllSources()` and re-invoke `play()` (whose promise is not
awaited; with a buffer present it cannot reject). -/
def PlayerState.seek (fetch : String → Except LoadError AudioBuffer)
    (s : PlayerState) (w : World) (time : ℚ) : PlayerState × World :=
  match s.buffer with
  | none => (s, w)
  | some b =>
    let s1 := { s with offset := jsMod time b.duration }
    if s1.sources.isEmpty then (s1, w)
    else
      let s2 := s1.stopAllSources
      let r := s2.play fetch w
      (r.1, r.2.1)

/-- `whenAllEnded()` (part_001 lines 144-152): the Boolean records
whether the promise resolved immediately; otherwise the (single-slot)
resolver is armed. -/
def PlayerState.whenAllEnded (s : PlayerState) : PlayerState × Bool :=
  if s.sources.isEmpty then (s, true)
  else ({ s with waiterPending := true }, false)

/-- The `onended` handler registered on non-looping sources (part_001
lines 99-106): remove this source from the list if still present, and if
the list is now empty resolve a pending waiter.  Delivered by the host
event loop at an arbitrary later point. -/
def PlayerState.voiceEnded (s : PlayerState) (vid : Nat) : PlayerState :=
  let remaining := s.sources.eraseP (fun v => v.vid == vid)
  if remaining.isEmpty && s.waiterPending then
    { s with sources := remaining, waiterPending := false
             events := Evt.resolveWaiter :: s.events }
  else
    { s with sources := remaining }

/-- `dispose(removeFromCache)` (part_001 lines 158-171): stop all
sources, disconnect the panner/gain nodes, delete the cache entry only
when `removeFromCache` is true *and* `this.sourcePath` is truthy
(non-empty), null the buffer, and reset `_loop`, `_playbackRate`,
`_offset`, `_endedPromiseResolver`. -/
def PlayerState.dispose (s : PlayerState) (w : World) (removeFromCache : Bool) :
    PlayerState × World :=
  let s1 := s.stopAllSources
  let s2 := { s1 with events := Evt.disconnectNodes :: s1.events }
  let w' :=
    if removeFromCache && s2.sourcePath != "" then
      { w with cache := cacheDelete w.cache s2.sourcePath }
    else w
  ({ s2 with buffer := none, loop := false, playbackRate := 1, offset := 0
             waiterPending := false }, w')

/-- `dispose(removeFromCache)` of part_000 (lines 155-167): identical to
part_001's except that it does not null `this.buffer`. -/
def PlayerState.disposeV0 (s : PlayerState) (w : World) (removeFromCache : Bool) :
    PlayerState × World :=
  let s1 := s.stopAllSources
  let s2 := { s1 with events := Evt.disconnectNodes :: s1.events }
  let w' :=
    if removeFromCache && s2.sourcePath != "" then
      { w with cache := cacheDelete w.cache s2.sourcePath }
    else w
  ({ s2 with loop := false, playbackRate := 1, offset := 0
             waiterPending := false }, w')

/-- The `loop` setter (part_001 lines 197-203): store the flag and apply
it to every active source. -/
def PlayerState.setLoop (s : PlayerState) (value : Bool) : PlayerState :=
  { s with loop := value
           sources := s.sources.map (fun v => { v with loop := value }) }

/-- The `playbackRate` setter (part_001 lines 235-240). -/
def PlayerState.setPlaybackRate (s : PlayerState) (value : ℚ) : PlayerState :=
  { s with playbackRate := value
           sources := s.sources.map (fun v => { v with rate := value }) }

/-- The `maxPolyphony` setter (part_001 lines 213-215): stores the value
only; active sources are untouched. -/
def PlayerState.setMaxPolyphony (s : PlayerState) (value : Nat) : PlayerState :=
  { s with maxPolyphony := value }

/-- One public operation on a player, including delivery of a voice-ended
notification by the host event loop. -/
inductive Op where
  | play
  | stop
  | seek (t : ℚ)
  | dispose (rm : Bool)
  | whenAllEnded
  | ended (vid : Nat)
  | setLoop (b : Bool)
  | setRate (r : ℚ)
  | setMax (n : Nat)
  | load
deriving Repr, DecidableEq

/-- Small-step semantics of the public interface of part_001. -/
def step (fetch : String → Except LoadError AudioBuffer)
    (sw : PlayerState × World) : Op → PlayerState × World
  | Op.play => let r := sw.1.play fetch sw.2; (r.1, r.2.1)
  | Op.stop => (sw.1.stop, sw.2)
  | Op.seek t => sw.1.seek fetch sw.2 t
  | Op.dispose rm => sw.1.dispose sw.2 rm
  | Op.whenAllEnded => ((sw.1.whenAllEnded).1, sw.2)
  | Op.ended vid => (sw.1.voiceEnded vid, sw.2)
  | Op.setLoop b => (sw.1.setLoop b, sw.2)
  | Op.setRate r => (sw.1.setPlaybackRate r, sw.2)
  | Op.setMax n => (sw.1.setMaxPolyphony n, sw.2)
  | Op.load => let r := sw.1.loadAudio fetch sw.2; (r.1, r.2.1)

/-- Run a sequence of public operations (part_001 semantics). -/
def run (fetch : String → Except LoadError AudioBuffer)
    (sw : PlayerState × World) (ops : List Op) : PlayerState × World :=
  ops.foldl (step fetch) sw

/-- Small-step semantics of part_000: identical except for `dispose`. -/
def stepV0 (fetch : String → Except LoadError AudioBuffer)
    (sw : PlayerState × World) : Op → PlayerState × World
  | Op.play => let r := sw.1.play fetch sw.2; (r.1, r.2.1)
  | Op.stop => (sw.1.stop, sw.2)
  | Op.seek t => sw.1.seek fetch sw.2 t
  | Op.dispose rm => sw.1.disposeV0 sw.2 rm
  | Op.whenAllEnded => ((sw.1.whenAllEnded).1, sw.2)
  | Op.ended vid => (sw.1.voiceEnded vid, sw.2)
  | Op.setLoop b => (sw.1.setLoop b, sw.2)
  | Op.setRate r => (sw.1.setPlaybackRate r, sw.2)
  | Op.setMax n => (sw.1.setMaxPolyphony n, sw.2)
  | Op.load => let r := sw.1.loadAudio fetch sw.2; (r.1, r.2.1)

/-- Run a sequence of public operations (part_000 semantics). -/
def runV0 (fetch : String → Except LoadError AudioBuffer)
    (sw : PlayerState × World) (ops : List Op) : PlayerState × World :=
  ops.foldl (stepV0 fetch) sw

/-- Iterate `play()` a given number of times, discarding rejections. -/
def playIter (fetch : String → Except LoadError AudioBuffer) :
    Nat → PlayerState × World → PlayerState × World
  | 0, sw => sw
  | Nat.succ k, sw =>
      let sw' := playIter fetch k sw
      let r := sw'.1.play fetch sw'.2
      (r.1, r.2.1)

/-! ### Concrete instances used by witnesses and counterexamples -/

/-- A ten-second decoded buffer. -/
def bufTen : AudioBuffer := { duration := 10, pcm := [1] }

/-- A world with an empty cache and no fetches yet. -/
def emptyWorld : World := { cache := [], fetchLog := [] }

/-- An oracle whose every fetch fails. -/
def badFetch : String → Except LoadError AudioBuffer :=
  fun _ => Except.error LoadError.fetchFailed

/-- An oracle whose every fetch succeeds with `bufTen`. -/
def goodFetch : String → Except LoadError AudioBuffer :=
  fun _ => Except.ok bufTen

/-- A loaded player with `maxPolyphony = 2` and no voices yet. -/
def loadedTwo : PlayerState :=
  { PlayerState.init "k" true 2 with buffer := some bufTen }

/-- Scenario: `play()` one voice, register a `whenAllEnded()` waiter,
then `seek(5)` while the voice is active. -/
def seekScenario : PlayerState :=
  (((loadedTwo.play badFetch emptyWorld).1.whenAllEnded).1.seek
    badFetch emptyWorld 5).1

/-- A loaded player with one active voice (vid 0), used for the seek
example `duration 10s, seek(13) ⇒ offset 3s`. -/
def seekPlayer : PlayerState :=
  { PlayerState.init "k" true 1 with
      buffer := some bufTen, sources := [⟨0, false, 1, 0⟩], nextId := 1 }

/-- A loaded player with `maxPolyphony = 3` and no voices yet. -/
def loadedThree : PlayerState :=
  { PlayerState.init "k" true 3 with buffer := some bufTen }

/-! ### Basic lemmas about the embedded operations -/

theorem stopEvents_nil (acc : List Evt) : stopEvents [] acc = acc := rfl

theorem stopEvents_cons (v : Voice) (vs : List Voice) (acc : List Evt) :
    stopEvents (v :: vs) acc =
      stopEvents vs (Evt.disconnectVoice v.vid :: Evt.stopVoice v.vid :: acc) := rfl

theorem mem_stopEvents_of_mem_acc {e : Evt} {acc : List Evt} (vs : List Voice)
    (h : e ∈ acc) : e ∈ stopEvents vs acc := by
  induction vs generalizing acc with
  | nil => exact h
  | cons v vs ih => exact ih (by simp [h])

theorem mem_stopEvents_stop {v : Voice} {vs : List Voice} (acc : List Evt)
    (h : v ∈ vs) : Evt.stopVoice v.vid ∈ stopEvents vs acc := by
  induction vs generalizing acc with
  | nil => cases h
  | cons u vs ih =>
    rcases List.mem_cons.mp h with h | h
    · subst h
      exact mem_stopEvents_of_mem_acc vs (by simp)
    · exact ih _ h

theorem mem_stopEvents_disconnect {v : Voice} {vs : List Voice} (acc : List Evt)
    (h : v ∈ vs) : Evt.disconnectVoice v.vid ∈ stopEvents vs acc := by
  induction vs generalizing acc with
  | nil => cases h
  | cons u vs ih =>
    rcases List.mem_cons.mp h with h | h
    · subst h
      exact mem_stopEvents_of_mem_acc vs (by simp)
    · exact ih _ h

theorem stopAllSources_sources (s : PlayerState) :
    s.stopAllSources.sources = [] := by
  unfold PlayerState.stopAllSources
  split <;> rfl

theorem stopAllSources_waiter (s : PlayerState) :
    s.stopAllSources.waiterPending = false := by
  unfold PlayerState.stopAllSources
  split
  · rfl
  · next h => simpa using h

theorem stopAllSources_offset (s : PlayerState) :
    s.stopAllSources.offset = s.offset := by
  unfold PlayerState.stopAllSources
  split <;> rfl

theorem stopAllSources_loop (s : PlayerState) :
    s.stopAllSources.loop = s.loop := by
  unfold PlayerState.stopAllSources
  split <;> rfl

theorem stopAllSources_rate (s : PlayerState) :
    s.stopAllSources.playbackRate = s.playbackRate := by
  unfold PlayerState.stopAllSources
  split <;> rfl

theorem stopAllSources_max (s : PlayerState) :
    s.stopAllSources.maxPolyphony = s.maxPolyphony := by
  unfold PlayerState.stopAllSources
  split <;> rfl

theorem stopAllSources_buffer (s : PlayerState) :
    s.stopAllSources.buffer = s.buffer := by
  unfold PlayerState.stopAllSources
  split <;> rfl

theorem stopAllSources_nextId (s : PlayerState) :
    s.stopAllSources.nextId = s.nextId := by
  unfold PlayerState.stopAllSources
  split <;> rfl

theorem stopAllSources_mem_stop {v : Voice} {s : PlayerState}
    (h : v ∈ s.sources) : Evt.stopVoice v.vid ∈ s.stopAllSources.events := by
  unfold PlayerState.stopAllSources
  split
  · exact List.mem_cons_of_mem _ (mem_stopEvents_stop _ h)
  · exact mem_stopEvents_stop _ h

theorem stopAllSources_mem_disconnect {v : Voice} {s : PlayerState}
    (h : v ∈ s.sources) : Evt.disconnectVoice v.vid ∈ s.stopAllSources.events := by
  unfold PlayerState.stopAllSources
  split
  · exact List.mem_cons_of_mem _ (mem_stopEvents_disconnect _ h)
  · exact mem_stopEvents_disconnect _ h

theorem stopAllSources_resolve {s : PlayerState} (h : s.waiterPending = true) :
    Evt.resolveWaiter ∈ s.stopAllSources.events := by
  unfold PlayerState.stopAllSources
  split
  · exact List.mem_cons_self _ _
  · next hn => exact absurd h hn

theorem play_of_loaded (fetch : String → Except LoadError AudioBuffer)
    (s : PlayerState) (w : World) (h : s.buffer.isSome = true) :
    s.play fetch w = (s.playLoaded, w, none) := by
  simp [PlayerState.play, h]

theorem playLoaded_nonloop_noevict {s : PlayerState}
    (h1 : s.loop = false) (h2 : s.sources.length < s.maxPolyphony) :
    s.playLoaded =
      { s with sources := s.sources ++ [⟨s.nextId, false, s.playbackRate, s.offset⟩]
               nextId := s.nextId + 1
               events := Evt.start s.nextId s.offset :: s.events } := by
  have hn : ¬ s.maxPolyphony ≤ s.sources.length := Nat.not_le.mpr h2
  simp [PlayerState.playLoaded, hn, h1]

theorem playLoaded_nonloop_evict {s : PlayerState} {oldest : Voice} {rest : List Voice}
    (h1 : s.loop = false) (h2 : s.maxPolyphony ≤ s.sources.length)
    (h3 : s.sources = oldest :: rest) :
    s.playLoaded =
      { s with sources := rest ++ [⟨s.nextId, false, s.playbackRate, s.offset⟩]
               nextId := s.nextId + 1
               events := Evt.start s.nextId s.offset ::
                 Evt.disconnectVoice oldest.vid :: Evt.stopVoice oldest.vid :: s.events } := by
  have h2' : s.maxPolyphony ≤ rest.length + 1 := by
    rw [h3] at h2; simpa using h2
  simp [PlayerState.playLoaded, PlayerState.evictOldest, h1, h2', h3]

theorem evictOldest_loop (s : PlayerState) : s.evictOldest.loop = s.loop := by
  unfold PlayerState.evictOldest; split <;> rfl

theorem evictOldest_rate (s : PlayerState) :
    s.evictOldest.playbackRate = s.playbackRate := by
  unfold PlayerState.evictOldest; split <;> rfl

theorem evictOldest_offset (s : PlayerState) : s.evictOldest.offset = s.offset := by
  unfold PlayerState.evictOldest; split <;> rfl

theorem evictOldest_nextId (s : PlayerState) : s.evictOldest.nextId = s.nextId := by
  unfold PlayerState.evictOldest; split <;> rfl

theorem evictOldest_max (s : PlayerState) :
    s.evictOldest.maxPolyphony = s.maxPolyphony := by
  unfold PlayerState.evictOldest; split <;> rfl

theorem evictOldest_buffer (s : PlayerState) : s.evictOldest.buffer = s.buffer := by
  unfold PlayerState.evictOldest; split <;> rfl

theorem evictOldest_waiter (s : PlayerState) :
    s.evictOldest.waiterPending = s.waiterPending := by
  unfold PlayerState.evictOldest; split <;> rfl

theorem stopAllSources_mem_acc {e : Evt} {s : PlayerState} (h : e ∈ s.events) :
    e ∈ s.stopAllSources.events := by
  unfold PlayerState.stopAllSources
  split
  · exact List.mem_cons_of_mem _ (mem_stopEvents_of_mem_acc _ h)
  · exact mem_stopEvents_of_mem_acc _ h

theorem playLoaded_loop_sources {s : PlayerState} (h1 : s.loop = true) :
    s.playLoaded.sources = [⟨s.nextId, true, s.playbackRate, s.offset⟩] := by
  simp only [PlayerState.playLoaded]
  split
  · simp [evictOldest_loop, evictOldest_rate, evictOldest_offset, evictOldest_nextId, h1]
  · simp [h1]

theorem stopAllSources_eq (s : PlayerState) :
    s.stopAllSources =
      { s with sources := [], waiterPending := false
               events := if s.waiterPending then
                   Evt.resolveWaiter :: stopEvents s.sources s.events
                 else stopEvents s.sources s.events } := by
  unfold PlayerState.stopAllSources
  split
  · next h => simp [h]
  · next h => simp at h; simp [h]

theorem playLoaded_loop_noevict {s : PlayerState}
    (h1 : s.loop = true) (h2 : s.sources.length < s.maxPolyphony) :
    s.playLoaded =
      { s with sources := [⟨s.nextId, true, s.playbackRate, s.offset⟩]
               nextId := s.nextId + 1
               waiterPending := false
               events := Evt.start s.nextId s.offset ::
                 (if s.waiterPending then
                     Evt.resolveWaiter :: stopEvents s.sources s.events
                   else stopEvents s.sources s.events) } := by
  have hn : ¬ s.maxPolyphony ≤ s.sources.length := Nat.not_le.mpr h2
  simp [PlayerState.playLoaded, hn, h1, stopAllSources_eq]

theorem playLoaded_loop_evict {s : PlayerState} {oldest : Voice} {rest : List Voice}
    (h1 : s.loop = true) (h2 : s.maxPolyphony ≤ s.sources.length)
    (h3 : s.sources = oldest :: rest) :
    s.playLoaded =
      { s with sources := [⟨s.nextId, true, s.playbackRate, s.offset⟩]
               nextId := s.nextId + 1
               waiterPending := false
               events := Evt.start s.nextId s.offset ::
                 (if s.waiterPending then
                     Evt.resolveWaiter :: stopEvents rest
                       (Evt.disconnectVoice oldest.vid :: Evt.stopVoice oldest.vid :: s.events)
                   else stopEvents rest
                       (Evt.disconnectVoice oldest.vid :: Evt.stopVoice oldest.vid :: s.events)) } := by
  have h2' : s.maxPolyphony ≤ rest.length + 1 := by
    rw [h3] at h2; simpa using h2
  simp [PlayerState.playLoaded, PlayerState.evictOldest, h1, h2', h3, stopAllSources_eq]

theorem loadAudio_cases (fetch : String → Except LoadError AudioBuffer)
    (s : PlayerState) (w : World) :
    (∃ b w', s.loadAudio fetch w = ({ s with buffer := some b }, w', none)) ∨
    (∃ e w', s.loadAudio fetch w = (s, w', some e)) := by
  unfold PlayerState.loadAudio
  rcases h : (if s.useCache then loadAudioWithCachingM else loadAudioBufferM) fetch w s.sourcePath
    with ⟨r, w'⟩
  cases r with
  | ok b => exact Or.inl ⟨b, w', by simp [h]⟩
  | error e => exact Or.inr ⟨e, w', by simp [h]⟩

theorem loadAudio_error_state {fetch : String → Except LoadError AudioBuffer}
    {s : PlayerState} {w : World} {e : LoadError}
    (h : (s.loadAudio fetch w).2.2 = some e) :
    (s.loadAudio fetch w).1 = s := by
  rcases loadAudio_cases fetch s w with ⟨b, w', hw⟩ | ⟨e', w', hw⟩
  · rw [hw] at h; cases h
  · rw [hw]

theorem play_of_unloaded_error {fetch : String → Except LoadError AudioBuffer}
    {s : PlayerState} {w : World} {e : LoadError}
    (h0 : s.buffer = none) (h : (s.loadAudio fetch w).2.2 = some e) :
    s.play fetch w = (s, (s.loadAudio fetch w).2.1, some e) := by
  rcases loadAudio_cases fetch s w with ⟨b, w', hw⟩ | ⟨e', w', hw⟩ <;> rw [hw] at h
  · cases h
  · cases h
    simp [PlayerState.play, h0, hw]

theorem mem_ite_resolve {e : Evt} {l : List Evt} {c : Prop} [Decidable c]
    (h : e ∈ l) : e ∈ (if c then Evt.resolveWaiter :: l else l) := by
  split
  · exact List.mem_cons_of_mem _ h
  · exact h

theorem playLoaded_stops_all {s : PlayerState} {v : Voice}
    (h1 : s.loop = true) (hv : v ∈ s.sources) :
    Evt.stopVoice v.vid ∈ s.playLoaded.events := by
  by_cases h2 : s.maxPolyphony ≤ s.sources.length
  · cases h3 : s.sources with
    | nil => rw [h3] at hv; cases hv
    | cons oldest rest =>
      rw [playLoaded_loop_evict h1 h2 h3]
      rw [h3] at hv
      dsimp only
      refine List.mem_cons_of_mem _ ?_
      rcases List.mem_cons.mp hv with h | h
      · subst h
        exact mem_ite_resolve (mem_stopEvents_of_mem_acc _ (by simp))
      · exact mem_ite_resolve (mem_stopEvents_stop _ h)
  · rw [playLoaded_loop_noevict h1 (Nat.not_le.mp h2)]
    dsimp only
    exact List.mem_cons_of_mem _ (mem_ite_resolve (mem_stopEvents_stop _ hv))

/-- C7: `stop()` force-stops and detaches every voice in the active
voice set, leaves the set empty, resets the offset to 0, and resolves a
pending completion waiter, clearing it. -/
theorem C7_stop_clears_all (s : PlayerState) :
    (s.stop).sources = [] ∧ (s.stop).offset = 0 ∧
    (∀ v ∈ s.sources, Evt.stopVoice v.vid ∈ (s.stop).events ∧
       Evt.disconnectVoice v.vid ∈ (s.stop).events) ∧
    (s.waiterPending = true →
       Evt.resolveWaiter ∈ (s.stop).events) ∧
    (s.stop).waiterPending = false := by
  refine ⟨?_, ?_, ?_, ?_, ?_⟩
  · simp [PlayerState.stop, stopAllSources_sources]
  · simp [PlayerState.stop]
  · intro v hv
    constructor
    · show Evt.stopVoice v.vid ∈ s.stopAllSources.events
      exact stopAllSources_mem_stop hv
    · show Evt.disconnectVoice v.vid ∈ s.stopAllSources.events
      exact stopAllSources_mem_disconnect hv
  · intro hp
    show Evt.resolveWaiter ∈ s.stopAllSources.events
    exact stopAllSources_resolve hp
  · show s.stopAllSources.waiterPending = false
    exact stopAllSources_waiter s

/-- Witness for C7 at a concrete state: one active voice (vid 7) and a
pending waiter. -/
theorem C7_witness :
    (({ PlayerState.init "k" true 1 with
        buffer := some bufTen, sources := [⟨7, false, 1, 0⟩],
        waiterPending := true } : PlayerState).stop).sources = [] ∧
    Evt.stopVoice 7 ∈ (({ PlayerState.init "k" true 1 with
        buffer := some bufTen, sources := [⟨7, false, 1, 0⟩],
        waiterPending := true } : PlayerState).stop).events ∧
    Evt.resolveWaiter ∈ (({ PlayerState.init "k" true 1 with
        buffer := some bufTen, sources := [⟨7, false, 1, 0⟩],
        waiterPending := true } : PlayerState).stop).events := by
  obtain ⟨h1, _, h3, h4, _⟩ := C7_stop_clears_all
    { PlayerState.init "k" true 1 with
        buffer := some bufTen, sources := [⟨7, false, 1, 0⟩], waiterPending := true }
  exact ⟨h1, (h3 ⟨7, false, 1, 0⟩ (by simp)).1, h4 rfl⟩

/-- C2: with a loaded buffer and any number of active voices, setting
`loop = true` and then calling `play()` leaves exactly one voice in the
active voice set — the new voice is the sole member, and every
previously active voice receives a stop call. -/
theorem C2_loop_play_single_voice (fetch : String → Except LoadError AudioBuffer)
    (s : PlayerState) (w : World) (hbuf : s.buffer.isSome = true) :
    (((s.setLoop true).play fetch w).1.sources =
        [⟨s.nextId, true, s.playbackRate, s.offset⟩]) ∧
    (∀ v ∈ s.sources,
        Evt.stopVoice v.vid ∈ ((s.setLoop true).play fetch w).1.events) := by
  have hb' : (s.setLoop true).buffer.isSome = true := by
    simpa [PlayerState.setLoop] using hbuf
  have hl : (s.setLoop true).loop = true := by simp [PlayerState.setLoop]
  rw [play_of_loaded fetch _ w hb']
  constructor
  · rw [playLoaded_loop_sources hl]
    simp [PlayerState.setLoop]
  · intro v hv
    have hv' : ({ v with loop := true } : Voice) ∈ (s.setLoop true).sources := by
      simp only [PlayerState.setLoop, List.mem_map]
      exact ⟨v, hv, rfl⟩
    simpa using playLoaded_stops_all hl hv'

/-- Witness for C2: a loaded player with two active voices (vids 4, 5)
ends up with exactly the new voice (vid 6) and both old voices stopped. -/
theorem C2_witness :
    ((({ PlayerState.init "k" true 2 with
          buffer := some bufTen,
          sources := [⟨4, false, 1, 0⟩, ⟨5, false, 1, 0⟩],
          nextId := 6 } : PlayerState).setLoop true).play badFetch emptyWorld).1.sources =
      [⟨6, true, 1, 0⟩] ∧
    Evt.stopVoice 4 ∈ ((({ PlayerState.init "k" true 2 with
          buffer := some bufTen,
          sources := [⟨4, false, 1, 0⟩, ⟨5, false, 1, 0⟩],
          nextId := 6 } : PlayerState).setLoop true).play badFetch emptyWorld).1.events ∧
    Evt.stopVoice 5 ∈ ((({ PlayerState.init "k" true 2 with
          buffer := some bufTen,
          sources := [⟨4, false, 1, 0⟩, ⟨5, false, 1, 0⟩],
          nextId := 6 } : PlayerState).setLoop true).play badFetch emptyWorld).1.events := by
  obtain ⟨h1, h2⟩ := C2_loop_play_single_voice badFetch
    { PlayerState.init "k" true 2 with
        buffer := some bufTen,
        sources := [⟨4, false, 1, 0⟩, ⟨5, false, 1, 0⟩], nextId := 6 }
    emptyWorld rfl
  exact ⟨h1, h2 ⟨4, false, 1, 0⟩ (by simp), h2 ⟨5, false, 1, 0⟩ (by simp)⟩

/-- C4 counterexample: on a fresh part_001 player whose implicit load
fails, `play()` does NOT complete as a silent no-op toward its caller —
the promise returned by `play()` rejects with the `LoadError` (the
`await this.loadAudio()` rethrows), contradicting the claim that no
error value is surfaced to the `play()` caller. -/
theorem C4_counterexample :
    ((PlayerState.init "a" true 1).play badFetch emptyWorld).2.2 =
      some LoadError.fetchFailed := by
  simp [PlayerState.init, PlayerState.play, PlayerState.loadAudio,
    loadAudioWithCachingM, loadAudioBufferM, cacheGet, badFetch, emptyWorld]

/-- C4 (amended): if `play()` is called with no buffer and the implicit
load fails, then no voice is created and the active voice set and the
whole player state are unchanged — but the `LoadError` propagates as the
rejection of the promise returned by `play()` (it is not swallowed). -/
theorem C4_amended (fetch : String → Except LoadError AudioBuffer)
    (s : PlayerState) (w : World) (e : LoadError)
    (h0 : s.buffer = none) (h : (s.loadAudio fetch w).2.2 = some e) :
    s.play fetch w = (s, (s.loadAudio fetch w).2.1, some e) ∧
    (s.play fetch w).1.sources = s.sources ∧
    (s.play fetch w).1.buffer = none := by
  have hp := play_of_unloaded_error h0 h
  refine ⟨hp, ?_, ?_⟩ <;> rw [hp]
  exact h0

/-- Witness for C4 (amended) at the concrete failing-fetch input. -/
theorem C4_witness :
    (PlayerState.init "a" true 1).play badFetch emptyWorld =
      (PlayerState.init "a" true 1,
        ((PlayerState.init "a" true 1).loadAudio badFetch emptyWorld).2.1,
        some LoadError.fetchFailed) :=
  (C4_amended badFetch (PlayerState.init "a" true 1) emptyWorld
    LoadError.fetchFailed rfl
    (by simp [PlayerState.init, PlayerState.loadAudio, loadAudioWithCachingM,
      loadAudioBufferM, cacheGet, badFetch, emptyWorld])).1

theorem evictOldest_mem_events {s : PlayerState} {e : Evt} (h : e ∈ s.events) :
    e ∈ s.evictOldest.events := by
  unfold PlayerState.evictOldest
  split
  · exact h
  · simp [h]

theorem playLoaded_nonloop_evict_nil {s : PlayerState}
    (h1 : s.loop = false) (h3 : s.sources = []) :
    s.playLoaded =
      { s with sources := [⟨s.nextId, false, s.playbackRate, s.offset⟩]
               nextId := s.nextId + 1
               events := Evt.start s.nextId s.offset :: s.events } := by
  have he : s.evictOldest = s := by simp [PlayerState.evictOldest, h3]
  simp [PlayerState.playLoaded, he, h1, h3]

theorem playLoaded_loop_evict_nil {s : PlayerState}
    (h1 : s.loop = true) (h3 : s.sources = []) :
    s.playLoaded =
      { s with sources := [⟨s.nextId, true, s.playbackRate, s.offset⟩]
               nextId := s.nextId + 1
               waiterPending := false
               events := Evt.start s.nextId s.offset ::
                 (if s.waiterPending then Evt.resolveWaiter :: s.events
                   else s.events) } := by
  have he : s.evictOldest = s := by simp [PlayerState.evictOldest, h3]
  simp [PlayerState.playLoaded, he, h1, h3, stopAllSources_eq, stopEvents_nil]

theorem playLoaded_mem_events {s : PlayerState} {e : Evt} (h : e ∈ s.events) :
    e ∈ s.playLoaded.events := by
  by_cases hl : s.loop = true
  · by_cases h2 : s.maxPolyphony ≤ s.sources.length
    · cases h3 : s.sources with
      | nil =>
        rw [playLoaded_loop_evict_nil hl h3]
        dsimp only
        exact List.mem_cons_of_mem _ (mem_ite_resolve h)
      | cons oldest rest =>
        rw [playLoaded_loop_evict hl h2 h3]
        dsimp only
        exact List.mem_cons_of_mem _
          (mem_ite_resolve (mem_stopEvents_of_mem_acc _ (by simp [h])))
    · rw [playLoaded_loop_noevict hl (Nat.not_le.mp h2)]
      dsimp only
      exact List.mem_cons_of_mem _
        (mem_ite_resolve (mem_stopEvents_of_mem_acc _ h))
  · rw [Bool.not_eq_true] at hl
    by_cases h2 : s.maxPolyphony ≤ s.sources.length
    · cases h3 : s.sources with
      | nil =>
        rw [playLoaded_nonloop_evict_nil hl h3]
        dsimp only
        exact List.mem_cons_of_mem _ h
      | cons oldest rest =>
        rw [playLoaded_nonloop_evict hl h2 h3]
        dsimp only
        exact List.mem_cons_of_mem _ (by simp [h])
    · rw [playLoaded_nonloop_noevict hl (Nat.not_le.mp h2)]
      dsimp only
      exact List.mem_cons_of_mem _ h

theorem playLoaded_waiter_nonloop {s : PlayerState} (h1 : s.loop = false) :
    s.playLoaded.waiterPending = s.waiterPending := by
  by_cases h2 : s.maxPolyphony ≤ s.sources.length
  · cases h3 : s.sources with
    | nil => rw [playLoaded_nonloop_evict_nil h1 h3]
    | cons oldest rest => rw [playLoaded_nonloop_evict h1 h2 h3]
  · rw [playLoaded_nonloop_noevict h1 (Nat.not_le.mp h2)]

theorem playLoaded_resolve_loop {s : PlayerState}
    (h1 : s.loop = true) (hw : s.waiterPending = true) :
    Evt.resolveWaiter ∈ s.playLoaded.events := by
  by_cases h2 : s.maxPolyphony ≤ s.sources.length
  · cases h3 : s.sources with
    | nil =>
      rw [playLoaded_loop_evict_nil h1 h3]
      simp [hw]
    | cons oldest rest =>
      rw [playLoaded_loop_evict h1 h2 h3]
      simp [hw]
  · rw [playLoaded_loop_noevict h1 (Nat.not_le.mp h2)]
    simp [hw]

theorem seek_resolves_waiter (fetch : String → Except LoadError AudioBuffer)
    (s : PlayerState) (w : World) (t : ℚ) {b : AudioBuffer}
    (hb : s.buffer = some b) (hs : s.sources ≠ []) (hw : s.waiterPending = true) :
    Evt.resolveWaiter ∈ (s.seek fetch w t).1.events := by
  have hne : s.sources.isEmpty = false := by
    cases h : s.sources with
    | nil => exact absurd h hs
    | cons a l => rfl
  have hsome :
      (({ s with offset := jsMod t b.duration, buffer := some b } :
          PlayerState).stopAllSources).buffer.isSome = true := by
    rw [stopAllSources_buffer]; rfl
  simp only [PlayerState.seek, hb, hne, Bool.false_eq_true, if_false]
  rw [play_of_loaded fetch _ w hsome]
  exact playLoaded_mem_events (stopAllSources_resolve hw)

/-- C3 counterexample: after `play()` and a pending `whenAllEnded()`
waiter, a `seek(5)` (neither natural completion nor `stop()`/disposal)
resolves the pending waiter while playback continues with one active
voice — refuting "no other operation resolves a pending waiter". -/
theorem C3_counterexample :
    ((loadedTwo.play badFetch emptyWorld).1.whenAllEnded).2 = false ∧
    ((loadedTwo.play badFetch emptyWorld).1.whenAllEnded).1.waiterPending = true ∧
    Evt.resolveWaiter ∈ seekScenario.events ∧
    seekScenario.sources ≠ [] ∧
    seekScenario.waiterPending = false := by
  refine ⟨?_, ?_, ?_, ?_, ?_⟩ <;>
    simp [seekScenario, loadedTwo, PlayerState.init, PlayerState.play,
      PlayerState.playLoaded, PlayerState.evictOldest, PlayerState.stopAllSources,
      PlayerState.whenAllEnded, PlayerState.seek, stopEvents, bufTen, badFetch,
      emptyWorld]

/-- C3 (amended): `whenAllEnded()` resolves immediately when the active
voice set is empty at the call, and otherwise arms the single-slot
waiter.  A pending waiter is resolved (and cleared) by: a voice-ended
notification that drains the set, an explicit `stop()`, `dispose()`, and
additionally by every other operation that runs `stopAllSources` — a
`seek()` issued while voices are active, and a `play()` in loop mode.  A
voice-ended notification that leaves the set non-empty does not resolve
it, and a non-loop `play()` leaves the waiter slot unchanged. -/
theorem C3_amended :
    (∀ s : PlayerState, s.sources = [] → s.whenAllEnded = (s, true)) ∧
    (∀ s : PlayerState, s.sources ≠ [] →
       (s.whenAllEnded).2 = false ∧ (s.whenAllEnded).1.waiterPending = true) ∧
    (∀ s : PlayerState, s.waiterPending = true →
       (s.stop).waiterPending = false ∧ Evt.resolveWaiter ∈ (s.stop).events) ∧
    (∀ (s : PlayerState) (w : World) (rm : Bool), s.waiterPending = true →
       (s.dispose w rm).1.waiterPending = false ∧
       Evt.resolveWaiter ∈ (s.dispose w rm).1.events) ∧
    (∀ (s : PlayerState) (vid : Nat), s.waiterPending = true →
       (s.sources.eraseP (fun v => v.vid == vid)).isEmpty = true →
       (s.voiceEnded vid).waiterPending = false ∧
       Evt.resolveWaiter ∈ (s.voiceEnded vid).events) ∧
    (∀ (s : PlayerState) (vid : Nat),
       (s.sources.eraseP (fun v => v.vid == vid)).isEmpty = false →
       (s.voiceEnded vid).waiterPending = s.waiterPending ∧
       (s.voiceEnded vid).events = s.events) ∧
    (∀ (fetch : String → Except LoadError AudioBuffer) (s : PlayerState)
       (w : World) (t : ℚ) (b : AudioBuffer),
       s.buffer = some b → s.sources ≠ [] → s.waiterPending = true →
       Evt.resolveWaiter ∈ (s.seek fetch w t).1.events) ∧
    (∀ (fetch : String → Except LoadError AudioBuffer) (s : PlayerState)
       (w : World),
       s.buffer.isSome = true → s.loop = true → s.waiterPending = true →
       Evt.resolveWaiter ∈ (s.play fetch w).1.events) ∧
    (∀ (fetch : String → Except LoadError AudioBuffer) (s : PlayerState)
       (w : World),
       s.buffer.isSome = true → s.loop = false →
       (s.play fetch w).1.waiterPending = s.waiterPending) := by
  refine ⟨?_, ?_, ?_, ?_, ?_, ?_, ?_, ?_, ?_⟩
  · intro s h
    simp [PlayerState.whenAllEnded, h]
  · intro s h
    cases hs : s.sources with
    | nil => exact absurd hs h
    | cons a l => exact ⟨by simp [PlayerState.whenAllEnded, hs],
        by simp [PlayerState.whenAllEnded, hs]⟩
  · intro s hw
    exact ⟨stopAllSources_waiter s, stopAllSources_resolve hw⟩
  · intro s w rm hw
    constructor
    · rfl
    · show Evt.resolveWaiter ∈ Evt.disconnectNodes :: s.stopAllSources.events
      exact List.mem_cons_of_mem _ (stopAllSources_resolve hw)
  · intro s vid hw he
    constructor
    · simp [PlayerState.voiceEnded, he, hw]
    · simp [PlayerState.voiceEnded, he, hw]
  · intro s vid he
    exact ⟨by simp [PlayerState.voiceEnded, he], by simp [PlayerState.voiceEnded, he]⟩
  · intro fetch s w t b hb hs hw
    exact seek_resolves_waiter fetch s w t hb hs hw
  · intro fetch s w hb hl hw
    rw [play_of_loaded fetch s w hb]
    exact playLoaded_resolve_loop hl hw
  · intro fetch s w hb hl
    rw [play_of_loaded fetch s w hb]
    exact playLoaded_waiter_nonloop hl

/-- Witness for C3 (amended): on a fresh player (no voices),
`whenAllEnded()` resolves immediately. -/
theorem C3_witness :
    (PlayerState.init "q" true 1).whenAllEnded = (PlayerState.init "q" true 1, true) :=
  C3_amended.1 (PlayerState.init "q" true 1) rfl

theorem playIter_zero (fetch : String → Except LoadError AudioBuffer)
    (sw : PlayerState × World) : playIter fetch 0 sw = sw := rfl

theorem playIter_succ (fetch : String → Except LoadError AudioBuffer)
    (k : Nat) (sw : PlayerState × World) :
    playIter fetch (k+1) sw =
      (((playIter fetch k sw).1.play fetch (playIter fetch k sw).2).1,
       ((playIter fetch k sw).1.play fetch (playIter fetch k sw).2).2.1) := rfl

theorem playIter_char (fetch : String → Except LoadError AudioBuffer)
    (n : Nat) (w : World) (s : PlayerState)
    (hb : s.buffer.isSome = true) (hl : s.loop = false) (hs : s.sources = [])
    (hm : s.maxPolyphony = n) :
    ∀ k, k ≤ n → playIter fetch k (s, w) =
      ({ s with
          sources := (List.range k).map
            (fun i => (⟨s.nextId + i, false, s.playbackRate, s.offset⟩ : Voice))
          nextId := s.nextId + k
          events := ((List.range k).map
            (fun i => Evt.start (s.nextId + i) s.offset)).reverse ++ s.events }, w) := by
  intro k hk
  induction k with
  | zero =>
    rw [playIter_zero]
    simp only [List.range_zero, List.map_nil, Nat.add_zero, List.reverse_nil,
      List.nil_append]
    rw [← hs]
  | succ k ih =>
    have hk' : k ≤ n := Nat.le_of_succ_le hk
    rw [playIter_succ, ih hk']
    dsimp only
    have hb2 : ({ s with
        sources := (List.range k).map
          (fun i => (⟨s.nextId + i, false, s.playbackRate, s.offset⟩ : Voice))
        nextId := s.nextId + k
        events := ((List.range k).map
          (fun i => Evt.start (s.nextId + i) s.offset)).reverse ++ s.events } :
        PlayerState).buffer.isSome = true := hb
    rw [play_of_loaded fetch _ w hb2]
    have hlen : ({ s with
        sources := (List.range k).map
          (fun i => (⟨s.nextId + i, false, s.playbackRate, s.offset⟩ : Voice))
        nextId := s.nextId + k
        events := ((List.range k).map
          (fun i => Evt.start (s.nextId + i) s.offset)).reverse ++ s.events } :
        PlayerState).sources.length <
        ({ s with
        sources := (List.range k).map
          (fun i => (⟨s.nextId + i, false, s.playbackRate, s.offset⟩ : Voice))
        nextId := s.nextId + k
        events := ((List.range k).map
          (fun i => Evt.start (s.nextId + i) s.offset)).reverse ++ s.events } :
        PlayerState).maxPolyphony := by
      show ((List.range k).map _).length < s.maxPolyphony
      rw [List.length_map, List.length_range, hm]
      exact Nat.lt_of_succ_le hk
    have hloop2 : ({ s with
        sources := (List.range k).map
          (fun i => (⟨s.nextId + i, false, s.playbackRate, s.offset⟩ : Voice))
        nextId := s.nextId + k
        events := ((List.range k).map
          (fun i => Evt.start (s.nextId + i) s.offset)).reverse ++ s.events } :
        PlayerState).loop = false := hl
    rw [playLoaded_nonloop_noevict hloop2 hlen]
    dsimp only
    simp [List.range_succ, Nat.add_assoc]

theorem playIter_final (fetch : String → Except LoadError AudioBuffer)
    (w : World) (s : PlayerState) (m : Nat)
    (hb : s.buffer.isSome = true) (hl : s.loop = false) (hs : s.sources = [])
    (hm : s.maxPolyphony = m + 1) :
    playIter fetch (m+2) (s, w) =
      ({ s with
          sources := ((List.range m).map
              (fun i => (⟨s.nextId + (i+1), false, s.playbackRate, s.offset⟩ : Voice)))
            ++ [⟨s.nextId + (m+1), false, s.playbackRate, s.offset⟩]
          nextId := s.nextId + (m+2)
          events := Evt.start (s.nextId + (m+1)) s.offset ::
            Evt.disconnectVoice s.nextId :: Evt.stopVoice s.nextId ::
            (((List.range (m+1)).map
              (fun i => Evt.start (s.nextId + i) s.offset)).reverse ++ s.events) }, w) := by
  have hchar := playIter_char fetch (m+1) w s hb hl hs hm (m+1) le_rfl
  rw [show m+2 = (m+1)+1 from rfl, playIter_succ, hchar]
  dsimp only
  have hb2 : ({ s with
      sources := (List.range (m+1)).map
        (fun i => (⟨s.nextId + i, false, s.playbackRate, s.offset⟩ : Voice))
      nextId := s.nextId + (m+1)
      events := ((List.range (m+1)).map
        (fun i => Evt.start (s.nextId + i) s.offset)).reverse ++ s.events } :
      PlayerState).buffer.isSome = true := hb
  rw [play_of_loaded fetch _ w hb2]
  have h2 : ({ s with
      sources := (List.range (m+1)).map
        (fun i => (⟨s.nextId + i, false, s.playbackRate, s.offset⟩ : Voice))
      nextId := s.nextId + (m+1)
      events := ((List.range (m+1)).map
        (fun i => Evt.start (s.nextId + i) s.offset)).reverse ++ s.events } :
      PlayerState).maxPolyphony ≤ ({ s with
      sources := (List.range (m+1)).map
        (fun i => (⟨s.nextId + i, false, s.playbackRate, s.offset⟩ : Voice))
      nextId := s.nextId + (m+1)
      events := ((List.range (m+1)).map
        (fun i => Evt.start (s.nextId + i) s.offset)).reverse ++ s.events } :
      PlayerState).sources.length := by
    show s.maxPolyphony ≤ ((List.range (m+1)).map _).length
    simp [hm]
  have h3 : ({ s with
      sources := (List.range (m+1)).map
        (fun i => (⟨s.nextId + i, false, s.playbackRate, s.offset⟩ : Voice))
      nextId := s.nextId + (m+1)
      events := ((List.range (m+1)).map
        (fun i => Evt.start (s.nextId + i) s.offset)).reverse ++ s.events } :
      PlayerState).sources =
      (⟨s.nextId + 0, false, s.playbackRate, s.offset⟩ : Voice) ::
        (List.range m).map
          (fun i => (⟨s.nextId + (i+1), false, s.playbackRate, s.offset⟩ : Voice)) := by
    show (List.range (m+1)).map _ = _
    rw [List.range_succ_eq_map]
    simp [List.map_map, Function.comp_def]
  have hloop2 : ({ s with
      sources := (List.range (m+1)).map
        (fun i => (⟨s.nextId + i, false, s.playbackRate, s.offset⟩ : Voice))
      nextId := s.nextId + (m+1)
      events := ((List.range (m+1)).map
        (fun i => Evt.start (s.nextId + i) s.offset)).reverse ++ s.events } :
      PlayerState).loop = false := hl
  rw [playLoaded_nonloop_evict hloop2 h2 h3]
  dsimp only
  simp [Nat.add_assoc]

/-- C1: with `maxPolyphony = n ≥ 1`, a loaded buffer, an empty active
voice set and `loop = false`, issuing `play()` n+1 times (no completions
in between) leaves exactly n active voices; the first-started voice
(vid `s.nextId`) is no longer active, it received the (only) force-stop
call — oldest-first, hard-cutoff eviction. -/
theorem C1_polyphony (fetch : String → Except LoadError AudioBuffer)
    (s : PlayerState) (w : World) (n : Nat)
    (hn : 1 ≤ n) (hb : s.buffer.isSome = true) (hl : s.loop = false)
    (hs : s.sources = []) (hm : s.maxPolyphony = n) :
    (playIter fetch (n+1) (s, w)).1.sources.length = n ∧
    (∀ v ∈ (playIter fetch (n+1) (s, w)).1.sources, v.vid ≠ s.nextId) ∧
    Evt.stopVoice s.nextId ∈ (playIter fetch (n+1) (s, w)).1.events ∧
    (∀ j, Evt.stopVoice j ∈ (playIter fetch (n+1) (s, w)).1.events →
      Evt.stopVoice j ∈ s.events ∨ j = s.nextId) := by
  obtain ⟨m, rfl⟩ : ∃ m, n = m + 1 := ⟨n - 1, (Nat.succ_pred_eq_of_pos hn).symm⟩
  rw [show m+1+1 = m+2 from rfl, playIter_final fetch w s m hb hl hs hm]
  dsimp only
  refine ⟨?_, ?_, ?_, ?_⟩
  · simp
  · intro v hv
    rcases List.mem_append.mp hv with h | h
    · obtain ⟨i, hi, rfl⟩ := List.mem_map.mp h
      simp
    · rw [List.mem_singleton] at h
      subst h
      simp
  · simp
  · intro j hj
    simp only [List.mem_cons, List.mem_append, List.mem_reverse, List.mem_map,
      List.mem_range] at hj
    rcases hj with h | h | h | h | h
    · cases h
    · cases h
    · exact Or.inr (Evt.stopVoice.inj h)
    · obtain ⟨i, _, h⟩ := h
      cases h
    · exact Or.inl h

/-- Witness for C1 at n = 2: three `play()` calls on a loaded player
leave two voices and the first voice (vid 0) stopped. -/
theorem C1_witness :
    (playIter badFetch 3 (loadedTwo, emptyWorld)).1.sources.length = 2 ∧
    Evt.stopVoice 0 ∈ (playIter badFetch 3 (loadedTwo, emptyWorld)).1.events := by
  obtain ⟨h1, h2, h3, h4⟩ :=
    C1_polyphony badFetch loadedTwo emptyWorld 2 (by decide) rfl rfl rfl rfl
  exact ⟨h1, h3⟩

theorem playLoaded_offset (s : PlayerState) : s.playLoaded.offset = s.offset := by
  simp only [PlayerState.playLoaded]
  split <;> split <;>
    simp [stopAllSources_offset, evictOldest_offset]

theorem playLoaded_of_empty {s : PlayerState} (hs : s.sources = []) :
    s.playLoaded.sources = [⟨s.nextId, s.loop, s.playbackRate, s.offset⟩] ∧
    Evt.start s.nextId s.offset ∈ s.playLoaded.events := by
  cases hl : s.loop
  · rw [playLoaded_nonloop_evict_nil hl hs]
    simp [hl]
  · rw [playLoaded_loop_evict_nil hl hs]
    simp [hl]

theorem seek_active (fetch : String → Except LoadError AudioBuffer)
    (s : PlayerState) (w : World) (t : ℚ) {b : AudioBuffer}
    (hb : s.buffer = some b) (hs : s.sources ≠ []) :
    s.seek fetch w t =
      ((({ s with offset := jsMod t b.duration, buffer := some b } :
          PlayerState).stopAllSources).playLoaded, w) := by
  have hne : s.sources.isEmpty = false := by
    cases h : s.sources with
    | nil => exact absurd h hs
    | cons a l => rfl
  have hsome :
      (({ s with offset := jsMod t b.duration, buffer := some b } :
          PlayerState).stopAllSources).buffer.isSome = true := by
    rw [stopAllSources_buffer]; rfl
  simp only [PlayerState.seek, hb, hne, Bool.false_eq_true, if_false]
  rw [play_of_loaded fetch _ w hsome]

/-- C6: `seek(time)` is a no-op without a buffer; with one, the new
offset is `time % bufferDuration` (for `time ≥ 0` and a positive
duration this is the wrap-around `time mod duration`, in `[0, d)`); if
no voice was active only the offset changes, and if voices were active
they are all stopped (offset kept, not reset) and playback restarts as a
single new voice from the new offset. -/
theorem C6_seek (fetch : String → Except LoadError AudioBuffer)
    (s : PlayerState) (w : World) (t : ℚ) :
    (s.buffer = none → s.seek fetch w t = (s, w)) ∧
    (∀ b : AudioBuffer, s.buffer = some b →
      (s.seek fetch w t).1.offset = jsMod t b.duration ∧
      (0 ≤ t → 0 < b.duration →
        jsMod t b.duration = t - b.duration * (⌊t / b.duration⌋ : ℤ) ∧
        0 ≤ jsMod t b.duration ∧ jsMod t b.duration < b.duration) ∧
      (s.sources = [] →
        s.seek fetch w t = ({ s with offset := jsMod t b.duration }, w)) ∧
      (s.sources ≠ [] →
        (s.seek fetch w t).1.sources =
          [⟨s.nextId, s.loop, s.playbackRate, jsMod t b.duration⟩] ∧
        (∀ v ∈ s.sources, Evt.stopVoice v.vid ∈ (s.seek fetch w t).1.events) ∧
        Evt.start s.nextId (jsMod t b.duration) ∈ (s.seek fetch w t).1.events)) := by
  constructor
  · intro h
    simp [PlayerState.seek, h]
  · intro b hb
    refine ⟨?_, ?_, ?_, ?_⟩
    · by_cases hs : s.sources = []
      · have heq : s.seek fetch w t = ({ s with offset := jsMod t b.duration }, w) := by
          simp [PlayerState.seek, hb, hs]
        rw [heq]
      · rw [seek_active fetch s w t hb hs]
        simp [playLoaded_offset, stopAllSources_offset]
    · intro ht hd
      have hdne : b.duration ≠ 0 := ne_of_gt hd
      have hq : 0 ≤ t / b.duration := div_nonneg ht hd.le
      have hmodeq : jsMod t b.duration =
          t - b.duration * (⌊t / b.duration⌋ : ℤ) := by
        simp [jsMod, jsTrunc, hq]
      have hfr : jsMod t b.duration = b.duration * Int.fract (t / b.duration) := by
        rw [hmodeq, Int.fract, mul_sub, mul_div_cancel₀ _ hdne]
      refine ⟨hmodeq, ?_, ?_⟩
      · rw [hfr]
        exact mul_nonneg hd.le (Int.fract_nonneg _)
      · rw [hfr]
        calc b.duration * Int.fract (t / b.duration)
            < b.duration * 1 := by
              exact mul_lt_mul_of_pos_left (Int.fract_lt_one _) hd
          _ = b.duration := mul_one _
    · intro hs
      simp [PlayerState.seek, hb, hs]
    · intro hs
      rw [seek_active fetch s w t hb hs]
      have hempty : (({ s with offset := jsMod t b.duration, buffer := some b } :
          PlayerState).stopAllSources).sources = [] := stopAllSources_sources _
      obtain ⟨hsrc, hstart⟩ := playLoaded_of_empty hempty
      refine ⟨?_, ?_, ?_⟩
      · rw [hsrc, stopAllSources_nextId, stopAllSources_loop, stopAllSources_rate,
          stopAllSources_offset]
      · intro v hv
        exact playLoaded_mem_events (stopAllSources_mem_stop hv)
      · rw [stopAllSources_nextId, stopAllSources_offset] at hstart
        exact hstart

/-- Witness for C6: duration 10s, one active voice, `seek(13)` gives
offset 3s and the voice restarted from offset 3. -/
theorem C6_witness :
    (seekPlayer.seek badFetch emptyWorld 13).1.offset = 3 ∧
    (seekPlayer.seek badFetch emptyWorld 13).1.sources = [⟨1, false, 1, 3⟩] ∧
    Evt.stopVoice 0 ∈ (seekPlayer.seek badFetch emptyWorld 13).1.events := by
  obtain ⟨-, hsome⟩ := C6_seek badFetch seekPlayer emptyWorld 13
  obtain ⟨hoff, hmod, -, hact⟩ := hsome bufTen rfl
  obtain ⟨hmodeq, -, -⟩ := hmod (by norm_num) (by norm_num [bufTen])
  have h3 : jsMod 13 bufTen.duration = 3 := by
    rw [hmodeq]
    norm_num [bufTen]
  obtain ⟨hsrc, hstops, -⟩ := hact (by simp [seekPlayer])
  refine ⟨hoff.trans h3, ?_, ?_⟩
  · rw [hsrc, h3]
    simp [seekPlayer, PlayerState.init]
  · exact hstops ⟨0, false, 1, 0⟩ (by simp [seekPlayer])

theorem cacheGet_delete (c : Cache) (k : String) :
    cacheGet (cacheDelete c k) k = none := by
  induction c with
  | nil => rfl
  | cons p rest ih =>
    rcases p with ⟨k', b⟩
    by_cases h : k' = k
    · simpa [cacheDelete, List.filter_cons, h] using ih
    · simpa [cacheDelete, List.filter_cons, h, cacheGet] using ih

theorem loadAudio_fetchLog_miss (fetch : String → Except LoadError AudioBuffer)
    (s : PlayerState) (w : World)
    (hc : s.useCache = true) (hmiss : cacheGet w.cache s.sourcePath = none) :
    (s.loadAudio fetch w).2.1.fetchLog = s.sourcePath :: w.fetchLog := by
  cases hf : fetch s.sourcePath with
  | ok b =>
    simp [PlayerState.loadAudio, hc, loadAudioWithCachingM, loadAudioBufferM,
      hmiss, hf]
  | error e =>
    simp [PlayerState.loadAudio, hc, loadAudioWithCachingM, loadAudioBufferM,
      hmiss, hf]

/-- C9 counterexample: a manager constructed with the empty source path
`""`.  `dispose(true)` does not remove the `""` entry from the cache
(the code guards on the truthiness of `sourcePath`, and the empty string
is falsy), refuting "removes the key if and only if removeFromCache is
true". -/
theorem C9_counterexample :
    ((PlayerState.init "" true 1).dispose
        { cache := [("", bufTen)], fetchLog := [] } true).2.cache =
      [("", bufTen)] := by
  simp [PlayerState.init, PlayerState.dispose, PlayerState.stopAllSources,
    stopEvents]

/-- C9 (amended): `dispose(removeFromCache)` performs the `stop()`
teardown (every voice stopped and detached, set emptied, offset 0,
pending waiter resolved), resets `loop` and `playbackRate` to defaults,
and removes the manager's source key from the cache if and only if
`removeFromCache` is true *and* the source key is non-empty (the code's
truthiness guard); after such a removal a fresh manager's `loadAudio()`
for the same key is a cache miss that performs a new fetch. -/
theorem C9_dispose (s : PlayerState) (w : World) (rm : Bool) :
    (s.dispose w rm).1.sources = [] ∧
    (s.dispose w rm).1.offset = 0 ∧
    (s.dispose w rm).1.loop = false ∧
    (s.dispose w rm).1.playbackRate = 1 ∧
    (s.dispose w rm).1.waiterPending = false ∧
    (∀ v ∈ s.sources, Evt.stopVoice v.vid ∈ (s.dispose w rm).1.events ∧
      Evt.disconnectVoice v.vid ∈ (s.dispose w rm).1.events) ∧
    (s.waiterPending = true → Evt.resolveWaiter ∈ (s.dispose w rm).1.events) ∧
    (s.sourcePath ≠ "" → rm = true →
      (s.dispose w rm).2.cache = cacheDelete w.cache s.sourcePath ∧
      cacheGet (s.dispose w rm).2.cache s.sourcePath = none) ∧
    (rm = false → (s.dispose w rm).2 = w) ∧
    (s.sourcePath = "" → (s.dispose w rm).2 = w) ∧
    (∀ (s2 : PlayerState) (fetch : String → Except LoadError AudioBuffer),
      rm = true → s.sourcePath ≠ "" → s2.sourcePath = s.sourcePath →
      s2.useCache = true →
      (s2.loadAudio fetch (s.dispose w rm).2).2.1.fetchLog =
        s.sourcePath :: (s.dispose w rm).2.fetchLog) := by
  have hsp : s.stopAllSources.sourcePath = s.sourcePath := by
    unfold PlayerState.stopAllSources
    split <;> rfl
  have hcachedel : s.sourcePath ≠ "" → rm = true →
      (s.dispose w rm).2.cache = cacheDelete w.cache s.sourcePath := by
    intro hpath hrm
    have hcond : (rm && (s.sourcePath != "")) = true := by
      rw [hrm]
      simpa using hpath
    simp [PlayerState.dispose, hsp, hcond]
  refine ⟨stopAllSources_sources s, rfl, rfl, rfl, rfl, ?_, ?_, ?_, ?_, ?_, ?_⟩
  · intro v hv
    constructor
    · show Evt.stopVoice v.vid ∈ Evt.disconnectNodes :: s.stopAllSources.events
      exact List.mem_cons_of_mem _ (stopAllSources_mem_stop hv)
    · show Evt.disconnectVoice v.vid ∈ Evt.disconnectNodes :: s.stopAllSources.events
      exact List.mem_cons_of_mem _ (stopAllSources_mem_disconnect hv)
  · intro hw
    show Evt.resolveWaiter ∈ Evt.disconnectNodes :: s.stopAllSources.events
    exact List.mem_cons_of_mem _ (stopAllSources_resolve hw)
  · intro hpath hrm
    refine ⟨hcachedel hpath hrm, ?_⟩
    rw [hcachedel hpath hrm]
    exact cacheGet_delete _ _
  · intro hrm
    simp [PlayerState.dispose, hsp, hrm]
  · intro hpath
    simp [PlayerState.dispose, hsp, hpath]
  · intro s2 fetch hrm hpath hs2 hc2
    have hmiss : cacheGet (s.dispose w rm).2.cache s2.sourcePath = none := by
      rw [hs2, hcachedel hpath hrm]
      exact cacheGet_delete _ _
    rw [loadAudio_fetchLog_miss fetch s2 _ hc2 hmiss, hs2]

/-- Witness for C9 (amended): after `dispose(true)` on key `"url"`, the
cache entry is gone and a fresh manager's `loadAudio()` performs a new
fetch. -/
theorem C9_witness :
    cacheGet ((PlayerState.init "url" true 1).dispose
        { cache := [("url", bufTen)], fetchLog := [] } true).2.cache "url" = none ∧
    ((PlayerState.init "url" true 1).loadAudio goodFetch
        ((PlayerState.init "url" true 1).dispose
          { cache := [("url", bufTen)], fetchLog := [] } true).2).2.1.fetchLog =
      ["url"] := by
  obtain ⟨-, -, -, -, -, -, -, hcache, -, -, hload⟩ :=
    C9_dispose (PlayerState.init "url" true 1)
      { cache := [("url", bufTen)], fetchLog := [] } true
  have hne : (PlayerState.init "url" true 1).sourcePath ≠ "" := by
    simp [PlayerState.init]
  exact ⟨(hcache hne rfl).2,
    hload (PlayerState.init "url" true 1) goodFetch rfl hne rfl rfl⟩

theorem cacheGet_set_self (c : Cache) (k : String) (b : AudioBuffer) :
    cacheGet (cacheSet c k b) k = some b := by
  induction c with
  | nil => simp [cacheSet, cacheGet]
  | cons p rest ih =>
    rcases p with ⟨k', b'⟩
    by_cases h : k' = k
    · simp [cacheSet, cacheGet, h]
    · simp [cacheSet, cacheGet, h, ih]

theorem cacheGet_some_countKey {c : Cache} {k : String} {b : AudioBuffer}
    (h : cacheGet c k = some b) : 1 ≤ countKey c k := by
  induction c with
  | nil => cases h
  | cons p rest ih =>
    rcases p with ⟨k', b'⟩
    by_cases hk : k' = k
    · simp [countKey, List.filter_cons, hk]
    · rw [cacheGet, if_neg hk] at h
      simpa [countKey, List.filter_cons, hk] using ih h

theorem countKey_set_self {c : Cache} {k : String} (b : AudioBuffer)
    (hwf : countKey c k ≤ 1) : countKey (cacheSet c k b) k = 1 := by
  induction c with
  | nil => simp [cacheSet, countKey]
  | cons p rest ih =>
    rcases p with ⟨k', b'⟩
    by_cases h : k' = k
    · have hz : countKey rest k = 0 := by
        have := hwf
        simp [countKey, List.filter_cons, h] at this
        simpa [countKey] using this
      simp [cacheSet, countKey, List.filter_cons, h]
      simpa [countKey] using hz
    · have hwf' : countKey rest k ≤ 1 := by
        simpa [countKey, List.filter_cons, h] using hwf
      simpa [cacheSet, countKey, List.filter_cons, h] using ih hwf'

/-- C8: the cached load first queries the decode cache; on a miss it
fetches, stores the result under the key, then returns it.  Hence two
managers with the same source key and `useCache = true`, loading
sequentially (the first load succeeding), end up referencing the same
decoded buffer, and the cache holds exactly one entry for that key. -/
theorem C8_cache (fetch : String → Except LoadError AudioBuffer)
    (w : World) (key : String) (s1 s2 : PlayerState)
    (hk1 : s1.sourcePath = key) (hk2 : s2.sourcePath = key)
    (hc1 : s1.useCache = true) (hc2 : s2.useCache = true)
    (hwf : countKey w.cache key ≤ 1)
    (hok : (s1.loadAudio fetch w).2.2 = none) :
    (∀ b, cacheGet w.cache key = some b →
      loadAudioWithCachingM fetch w key = (Except.ok b, w)) ∧
    (∀ b, cacheGet w.cache key = none → fetch key = Except.ok b →
      loadAudioWithCachingM fetch w key =
        (Except.ok b, { cache := cacheSet w.cache key b
                        fetchLog := key :: w.fetchLog })) ∧
    ((s2.loadAudio fetch (s1.loadAudio fetch w).2.1).2.2 = none ∧
     (s1.loadAudio fetch w).1.buffer =
       (s2.loadAudio fetch (s1.loadAudio fetch w).2.1).1.buffer ∧
     (s1.loadAudio fetch w).1.buffer.isSome = true ∧
     countKey (s2.loadAudio fetch (s1.loadAudio fetch w).2.1).2.1.cache key = 1) := by
  refine ⟨?_, ?_, ?_⟩
  · intro b hget
    simp [loadAudioWithCachingM, hget]
  · intro b hget hf
    simp [loadAudioWithCachingM, loadAudioBufferM, hget, hf]
  · cases hget : cacheGet w.cache key with
    | some b =>
      have h1 : s1.loadAudio fetch w = ({ s1 with buffer := some b }, w, none) := by
        simp [PlayerState.loadAudio, hc1, hk1, loadAudioWithCachingM, hget]
      have h2 : s2.loadAudio fetch w = ({ s2 with buffer := some b }, w, none) := by
        simp [PlayerState.loadAudio, hc2, hk2, loadAudioWithCachingM, hget]
      rw [h1]
      dsimp only
      rw [h2]
      exact ⟨rfl, rfl, rfl, le_antisymm hwf (cacheGet_some_countKey hget)⟩
    | none =>
      cases hf : fetch key with
      | error e =>
        have h1 : (s1.loadAudio fetch w).2.2 = some e := by
          simp [PlayerState.loadAudio, hc1, hk1, loadAudioWithCachingM,
            loadAudioBufferM, hget, hf]
        rw [h1] at hok
        cases hok
      | ok b =>
        have h1 : s1.loadAudio fetch w =
            ({ s1 with buffer := some b },
             { cache := cacheSet w.cache key b, fetchLog := key :: w.fetchLog },
             none) := by
          simp [PlayerState.loadAudio, hc1, hk1, loadAudioWithCachingM,
            loadAudioBufferM, hget, hf]
        have hget2 : cacheGet (cacheSet w.cache key b) key = some b :=
          cacheGet_set_self w.cache key b
        have h2 : s2.loadAudio fetch
            { cache := cacheSet w.cache key b, fetchLog := key :: w.fetchLog } =
            ({ s2 with buffer := some b },
             { cache := cacheSet w.cache key b, fetchLog := key :: w.fetchLog },
             none) := by
          simp [PlayerState.loadAudio, hc2, hk2, loadAudioWithCachingM, hget2]
        rw [h1]
        dsimp only
        rw [h2]
        exact ⟨rfl, rfl, rfl, countKey_set_self b hwf⟩

/-- Witness for C8: two managers for key `"a"` with caching, sequential
loads against an empty cache. -/
theorem C8_witness :
    ((PlayerState.init "a" true 1).loadAudio goodFetch emptyWorld).1.buffer =
      ((PlayerState.init "a" true 2).loadAudio goodFetch
        ((PlayerState.init "a" true 1).loadAudio goodFetch emptyWorld).2.1).1.buffer ∧
    countKey ((PlayerState.init "a" true 2).loadAudio goodFetch
        ((PlayerState.init "a" true 1).loadAudio goodFetch emptyWorld).2.1).2.1.cache
      "a" = 1 := by
  obtain ⟨-, -, h3⟩ := C8_cache goodFetch emptyWorld "a"
    (PlayerState.init "a" true 1) (PlayerState.init "a" true 2) rfl rfl rfl rfl
    (by simp [countKey, emptyWorld])
    (by simp [PlayerState.init, PlayerState.loadAudio, loadAudioWithCachingM,
      loadAudioBufferM, cacheGet, goodFetch, emptyWorld])
  exact ⟨h3.2.1, h3.2.2.2⟩

theorem playLoaded_max (s : PlayerState) :
    s.playLoaded.maxPolyphony = s.maxPolyphony := by
  simp only [PlayerState.playLoaded]
  split <;> split <;>
    simp [stopAllSources_max, evictOldest_max]

theorem playLoaded_len {s : PlayerState}
    (h1 : 1 ≤ s.maxPolyphony) (h2 : s.sources.length ≤ s.maxPolyphony) :
    s.playLoaded.sources.length ≤ s.maxPolyphony := by
  cases hl : s.loop
  · by_cases h2' : s.maxPolyphony ≤ s.sources.length
    · cases h3 : s.sources with
      | nil =>
        rw [playLoaded_nonloop_evict_nil hl h3]
        simpa using h1
      | cons o r =>
        rw [playLoaded_nonloop_evict hl h2' h3]
        rw [h3] at h2
        simpa using h2
    · rw [playLoaded_nonloop_noevict hl (Nat.not_le.mp h2')]
      simpa using Nat.not_le.mp h2'
  · rw [playLoaded_loop_sources hl]
    simpa using h1

theorem play_of_unloaded_ok {fetch : String → Except LoadError AudioBuffer}
    {s : PlayerState} {w w' : World} {b : AudioBuffer}
    (h0 : s.buffer.isSome = false)
    (h : s.loadAudio fetch w = ({ s with buffer := some b }, w', none)) :
    s.play fetch w = (({ s with buffer := some b } : PlayerState).playLoaded, w', none) := by
  simp [PlayerState.play, h0, h]

theorem play_inv (fetch : String → Except LoadError AudioBuffer)
    (s : PlayerState) (w : World)
    (h1 : 1 ≤ s.maxPolyphony) (h2 : s.sources.length ≤ s.maxPolyphony) :
    (s.play fetch w).1.maxPolyphony = s.maxPolyphony ∧
    (s.play fetch w).1.sources.length ≤ (s.play fetch w).1.maxPolyphony := by
  by_cases hb : s.buffer.isSome = true
  · rw [play_of_loaded fetch s w hb]
    refine ⟨playLoaded_max s, ?_⟩
    rw [playLoaded_max s]
    exact playLoaded_len h1 h2
  · have hb0 : s.buffer.isSome = false := by simpa using hb
    rcases loadAudio_cases fetch s w with ⟨b, w', hload⟩ | ⟨e, w', hload⟩
    · rw [play_of_unloaded_ok hb0 hload]
      refine ⟨playLoaded_max _, ?_⟩
      rw [playLoaded_max _]
      exact playLoaded_len h1 h2
    · have hb' : s.buffer = none := Option.not_isSome_iff_eq_none.mp (by simpa using hb)
      have herr : (s.loadAudio fetch w).2.2 = some e := by rw [hload]
      rw [play_of_unloaded_error hb' herr]
      exact ⟨rfl, h2⟩

theorem whenAllEnded_sources (s : PlayerState) :
    (s.whenAllEnded).1.sources = s.sources := by
  unfold PlayerState.whenAllEnded
  split <;> rfl

theorem whenAllEnded_max (s : PlayerState) :
    (s.whenAllEnded).1.maxPolyphony = s.maxPolyphony := by
  unfold PlayerState.whenAllEnded
  split <;> rfl

theorem voiceEnded_sources (s : PlayerState) (vid : Nat) :
    (s.voiceEnded vid).sources = s.sources.eraseP (fun v => v.vid == vid) := by
  simp only [PlayerState.voiceEnded]
  split <;> rfl

theorem voiceEnded_max (s : PlayerState) (vid : Nat) :
    (s.voiceEnded vid).maxPolyphony = s.maxPolyphony := by
  simp only [PlayerState.voiceEnded]
  split <;> rfl

theorem loadAudio_sources (fetch : String → Except LoadError AudioBuffer)
    (s : PlayerState) (w : World) :
    (s.loadAudio fetch w).1.sources = s.sources ∧
    (s.loadAudio fetch w).1.maxPolyphony = s.maxPolyphony := by
  rcases loadAudio_cases fetch s w with ⟨b, w', hload⟩ | ⟨e, w', hload⟩ <;>
    rw [hload] <;> exact ⟨rfl, rfl⟩

theorem stepInv (fetch : String → Except LoadError AudioBuffer)
    (s : PlayerState) (w : World) (op : Op)
    (h1 : 1 ≤ s.maxPolyphony)
    (h2 : s.sources.length ≤ s.maxPolyphony)
    (h3 : ∀ n, op = Op.setMax n → 1 ≤ n ∧ s.sources.length ≤ n) :
    1 ≤ (step fetch (s, w) op).1.maxPolyphony ∧
    (step fetch (s, w) op).1.sources.length ≤ (step fetch (s, w) op).1.maxPolyphony := by
  cases op with
  | play =>
    obtain ⟨hmax, hlen⟩ := play_inv fetch s w h1 h2
    show 1 ≤ (s.play fetch w).1.maxPolyphony ∧
      (s.play fetch w).1.sources.length ≤ (s.play fetch w).1.maxPolyphony
    rw [hmax]
    exact ⟨h1, by rw [← hmax]; exact hlen⟩
  | stop =>
    show 1 ≤ (s.stop).maxPolyphony ∧
      (s.stop).sources.length ≤ (s.stop).maxPolyphony
    have hmax : (s.stop).maxPolyphony = s.maxPolyphony := stopAllSources_max s
    have hsrc : (s.stop).sources = [] := stopAllSources_sources s
    rw [hmax, hsrc]
    exact ⟨h1, by simp⟩
  | seek t =>
    show 1 ≤ (s.seek fetch w t).1.maxPolyphony ∧
      (s.seek fetch w t).1.sources.length ≤ (s.seek fetch w t).1.maxPolyphony
    cases hb : s.buffer with
    | none =>
      have heq : s.seek fetch w t = (s, w) := by
        simp [PlayerState.seek, hb]
      rw [heq]
      exact ⟨h1, h2⟩
    | some b =>
      by_cases hs : s.sources = []
      · have heq : s.seek fetch w t =
            ({ s with offset := jsMod t b.duration }, w) := by
          simp [PlayerState.seek, hb, hs]
        rw [heq]
        exact ⟨h1, h2⟩
      · rw [seek_active fetch s w t hb hs]
        have hempty := stopAllSources_sources
          ({ s with offset := jsMod t b.duration, buffer := some b } : PlayerState)
        obtain ⟨hsrc, -⟩ := playLoaded_of_empty hempty
        have hmax := playLoaded_max
          (({ s with offset := jsMod t b.duration, buffer := some b } :
            PlayerState).stopAllSources)
        rw [stopAllSources_max] at hmax
        dsimp only
        rw [hsrc, hmax]
        exact ⟨h1, by simpa using h1⟩
  | dispose rm =>
    show 1 ≤ (s.dispose w rm).1.maxPolyphony ∧
      (s.dispose w rm).1.sources.length ≤ (s.dispose w rm).1.maxPolyphony
    have hmax : (s.dispose w rm).1.maxPolyphony = s.maxPolyphony :=
      stopAllSources_max s
    have hsrc : (s.dispose w rm).1.sources = [] := stopAllSources_sources s
    rw [hmax, hsrc]
    exact ⟨h1, by simp⟩
  | whenAllEnded =>
    show 1 ≤ (s.whenAllEnded).1.maxPolyphony ∧
      (s.whenAllEnded).1.sources.length ≤ (s.whenAllEnded).1.maxPolyphony
    rw [whenAllEnded_max, whenAllEnded_sources]
    exact ⟨h1, h2⟩
  | ended vid =>
    show 1 ≤ (s.voiceEnded vid).maxPolyphony ∧
      (s.voiceEnded vid).sources.length ≤ (s.voiceEnded vid).maxPolyphony
    rw [voiceEnded_max, voiceEnded_sources]
    refine ⟨h1, ?_⟩
    calc (s.sources.eraseP (fun v => v.vid == vid)).length
        ≤ s.sources.length := (List.eraseP_sublist _).length_le
      _ ≤ s.maxPolyphony := h2
  | setLoop b =>
    show 1 ≤ (s.setLoop b).maxPolyphony ∧
      (s.setLoop b).sources.length ≤ (s.setLoop b).maxPolyphony
    simp only [PlayerState.setLoop, List.length_map]
    exact ⟨h1, h2⟩
  | setRate r =>
    show 1 ≤ (s.setPlaybackRate r).maxPolyphony ∧
      (s.setPlaybackRate r).sources.length ≤ (s.setPlaybackRate r).maxPolyphony
    simp only [PlayerState.setPlaybackRate, List.length_map]
    exact ⟨h1, h2⟩
  | setMax n =>
    obtain ⟨hn1, hn2⟩ := h3 n rfl
    show 1 ≤ (s.setMaxPolyphony n).maxPolyphony ∧
      (s.setMaxPolyphony n).sources.length ≤ (s.setMaxPolyphony n).maxPolyphony
    exact ⟨hn1, hn2⟩
  | load =>
    obtain ⟨hsrc, hmax⟩ := loadAudio_sources fetch s w
    show 1 ≤ (s.loadAudio fetch w).1.maxPolyphony ∧
      (s.loadAudio fetch w).1.sources.length ≤ (s.loadAudio fetch w).1.maxPolyphony
    rw [hsrc, hmax]
    exact ⟨h1, h2⟩

/-- C5 counterexample: play three voices at `maxPolyphony = 3`, then set
`maxPolyphony := 1`.  The resulting (stable, reachable, not
mid-eviction) state has three active voices but a ceiling of 1, so the
invariant `length ≤ maxPolyphony` does not hold in all reachable
states. -/
theorem C5_counterexample :
    (run badFetch (loadedThree, emptyWorld)
      [Op.play, Op.play, Op.play, Op.setMax 1]).1.sources.length = 3 ∧
    (run badFetch (loadedThree, emptyWorld)
      [Op.play, Op.play, Op.play, Op.setMax 1]).1.maxPolyphony = 1 := by
  constructor <;>
    simp [run, step, loadedThree, PlayerState.init, PlayerState.play,
      PlayerState.playLoaded, PlayerState.evictOldest, PlayerState.setMaxPolyphony,
      bufTen]

/-- C5 (amended): provided `maxPolyphony ≥ 1`, every public operation —
including voice-ended notifications — preserves `length(sources) ≤
maxPolyphony`, **except** that assigning `maxPolyphony` preserves it
only when the new value is at least the current set length (the setter
does not evict retroactively, so assigning below the current length
leaves a stable state exceeding the ceiling).  Consequently the
invariant holds in every state reachable without such an assignment,
e.g. along any trace that never touches `maxPolyphony`. -/
theorem C5_invariant :
    (∀ (fetch : String → Except LoadError AudioBuffer) (s : PlayerState)
       (w : World) (op : Op),
       1 ≤ s.maxPolyphony →
       s.sources.length ≤ s.maxPolyphony →
       (∀ n, op = Op.setMax n → 1 ≤ n ∧ s.sources.length ≤ n) →
       1 ≤ (step fetch (s, w) op).1.maxPolyphony ∧
       (step fetch (s, w) op).1.sources.length ≤
         (step fetch (s, w) op).1.maxPolyphony) ∧
    (∀ (fetch : String → Except LoadError AudioBuffer)
       (sw : PlayerState × World) (ops : List Op),
       (∀ n, Op.setMax n ∉ ops) →
       1 ≤ sw.1.maxPolyphony →
       sw.1.sources.length ≤ sw.1.maxPolyphony →
       1 ≤ (run fetch sw ops).1.maxPolyphony ∧
       (run fetch sw ops).1.sources.length ≤ (run fetch sw ops).1.maxPolyphony) := by
  constructor
  · intro fetch s w op hp1 hp2 hp3
    exact stepInv fetch s w op hp1 hp2 hp3
  · intro fetch sw ops
    induction ops generalizing sw with
    | nil => exact fun _ hp1 hp2 => ⟨hp1, hp2⟩
    | cons op rest ih =>
      intro hops hp1 hp2
      obtain ⟨s, w⟩ := sw
      have hstep := stepInv fetch s w op hp1 hp2
        (fun n hn => absurd (hn ▸ List.mem_cons_self op rest)
          (by intro hmem; exact hops n (hn ▸ hmem)))
      have hrest : ∀ n, Op.setMax n ∉ rest := fun n hn =>
        hops n (List.mem_cons_of_mem _ hn)
      exact ih (step fetch (s, w) op) hrest hstep.1 hstep.2

/-- Witness for C5 (amended): one `play()` on a loaded two-voice player
keeps the invariant; a setMax-free trace keeps it as well. -/
theorem C5_witness :
    (1 ≤ (step badFetch (loadedTwo, emptyWorld) Op.play).1.maxPolyphony ∧
     (step badFetch (loadedTwo, emptyWorld) Op.play).1.sources.length ≤
       (step badFetch (loadedTwo, emptyWorld) Op.play).1.maxPolyphony) ∧
    (1 ≤ (run badFetch (loadedTwo, emptyWorld) [Op.play, Op.stop]).1.maxPolyphony ∧
     (run badFetch (loadedTwo, emptyWorld) [Op.play, Op.stop]).1.sources.length ≤
       (run badFetch (loadedTwo, emptyWorld) [Op.play, Op.stop]).1.maxPolyphony) := by
  constructor
  · exact C5_invariant.1 badFetch loadedTwo emptyWorld Op.play (by decide) (by decide)
      (fun n h => nomatch h)
  · exact C5_invariant.2 badFetch (loadedTwo, emptyWorld) [Op.play, Op.stop]
      (by intro n hn; simp at hn) (by decide) (by decide)

/-- C10 counterexample: the two versions are not observationally
equivalent.  On a fresh player whose fetch fails, a single `play()`
creates a voice in part_000 (its zero-length placeholder buffer is
truthy, so the implicit-load branch is skipped and no error occurs)
but creates none in part_001 (null buffer, implicit load fails, the
promise rejects). -/
theorem C10_counterexample :
    ((PlayerState.initV0 "k" true 1).play badFetch emptyWorld).1.sources.length = 1 ∧
    ((PlayerState.initV0 "k" true 1).play badFetch emptyWorld).2.2 = none ∧
    ((PlayerState.init "k" true 1).play badFetch emptyWorld).1.sources.length = 0 ∧
    ((PlayerState.init "k" true 1).play badFetch emptyWorld).2.2 =
      some LoadError.fetchFailed := by
  refine ⟨?_, ?_, ?_, ?_⟩ <;>
    simp [PlayerState.initV0, PlayerState.init, PlayerState.play,
      PlayerState.playLoaded, PlayerState.evictOldest, PlayerState.loadAudio,
      loadAudioWithCachingM, loadAudioBufferM, cacheGet, emptyBuffer, badFetch,
      emptyWorld]

theorem loadAudio_eq_of_fields {s1 s2 : PlayerState}
    (fetch : String → Except LoadError AudioBuffer) (w : World)
    (hu : s1.useCache = s2.useCache) (hp : s1.sourcePath = s2.sourcePath)
    (hrec : ∀ b : AudioBuffer,
      ({ s1 with buffer := some b } : PlayerState) = { s2 with buffer := some b })
    (hok : (s1.loadAudio fetch w).2.2 = none) :
    s1.loadAudio fetch w = s2.loadAudio fetch w := by
  simp only [PlayerState.loadAudio] at hok ⊢
  rw [hu, hp] at hok ⊢
  cases hres : (if s2.useCache then loadAudioWithCachingM else loadAudioBufferM)
      fetch w s2.sourcePath with
  | mk r w' =>
    cases r with
    | ok b =>
      injection hrec b with e1 e2 e3 e4 e5 e6 e7 e8 e9 e10 e11
      simp [e1, e2, e3, e4, e5, e9, e10, e11]
    | error e =>
      rw [hres] at hok
      simp at hok

/-- C10 (amended): the two versions coincide once a successful
`loadAudio()` has run — a fresh part_000 player and a fresh part_001
player are in identical states after the same successful load (the only
constructor difference, the initial `buffer`, is overwritten) — and the
two step functions agree on every operation sequence that contains no
`dispose` (the single method whose body differs: part_001 nulls the
buffer, part_000 keeps it).  They are not equivalent before a successful
load or across a `dispose` (see the counterexample). -/
theorem C10_equiv :
    (∀ (path : String) (uc : Bool) (mp : Nat)
       (fetch : String → Except LoadError AudioBuffer) (w : World),
       ((PlayerState.initV0 path uc mp).loadAudio fetch w).2.2 = none →
       (PlayerState.initV0 path uc mp).loadAudio fetch w =
         (PlayerState.init path uc mp).loadAudio fetch w) ∧
    (∀ (fetch : String → Except LoadError AudioBuffer)
       (sw : PlayerState × World) (ops : List Op),
       (∀ rm, Op.dispose rm ∉ ops) →
       runV0 fetch sw ops = run fetch sw ops) := by
  have hstep : ∀ (fetch : String → Except LoadError AudioBuffer)
      (sw : PlayerState × World) (op : Op),
      (∀ rm, op ≠ Op.dispose rm) → stepV0 fetch sw op = step fetch sw op := by
    intro fetch sw op hop
    cases op with
    | dispose rm => exact absurd rfl (hop rm)
    | play => rfl
    | stop => rfl
    | seek t => rfl
    | whenAllEnded => rfl
    | ended vid => rfl
    | setLoop b => rfl
    | setRate r => rfl
    | setMax n => rfl
    | load => rfl
  constructor
  · intro path uc mp fetch w hok
    exact loadAudio_eq_of_fields fetch w rfl rfl (fun b => rfl) hok
  · intro fetch sw ops
    induction ops generalizing sw with
    | nil => intro _; rfl
    | cons op rest ih =>
      intro hops
      have h1 : ∀ rm, op ≠ Op.dispose rm := fun rm h =>
        hops rm (by rw [h] at *; exact List.mem_cons_self _ _)
      have hrest : ∀ rm, Op.dispose rm ∉ rest := fun rm hm =>
        hops rm (List.mem_cons_of_mem _ hm)
      show runV0 fetch (stepV0 fetch sw op) rest = run fetch (step fetch sw op) rest
      rw [hstep fetch sw op h1]
      exact ih (step fetch sw op) hrest

/-- Witness for C10 (amended): a successful load synchronises the fresh
states of the two versions, and a dispose-free trace evolves them
identically. -/
theorem C10_witness :
    (PlayerState.initV0 "k" true 1).loadAudio goodFetch emptyWorld =
      (PlayerState.init "k" true 1).loadAudio goodFetch emptyWorld ∧
    runV0 goodFetch (loadedTwo, emptyWorld) [Op.play, Op.stop] =
      run goodFetch (loadedTwo, emptyWorld) [Op.play, Op.stop] := by
  constructor
  · exact C10_equiv.1 "k" true 1 goodFetch emptyWorld
      (by simp [PlayerState.initV0, PlayerState.init, PlayerState.loadAudio,
        loadAudioWithCachingM, loadAudioBufferM, cacheGet, goodFetch, emptyWorld])
  · exact C10_equiv.2 goodFetch (loadedTwo, emptyWorld) [Op.play, Op.stop]
      (by intro rm hm; simp at hm)
